import Mathlib

/-!
Shallow embedding of the KNX USB HID transfer-protocol framing layer of the
xknx repository (module `xknx/usb/knx_hid_transfer.py`), together with the
field catalogs it imports and the frame fragmenter / reassembler described by
the design document.  Python `bytes` values are embedded as `List Nat`
(each octet a natural number below 256); Python code paths that can raise are
embedded as `Except`-valued functions.
-/

namespace KnxUsb

/-- Modelled from the spec: `ProtocolID` is a closed enumeration separating a
"KNX Tunnel" from the other USB-carried protocols (`xknx/usb/knx_hid_datatypes.py`
is not among the shown sources).  The octet values are chosen injectively. -/
inductive ProtocolID
  | KNX_TUNNEL
  | BUS_ACCESS_SERVER_FEATURE_SERVICE
deriving DecidableEq

/-- Octet value of a `ProtocolID` member (Python `enum.value`). -/
def ProtocolID.value : ProtocolID → Nat
  | .KNX_TUNNEL => 1
  | .BUS_ACCESS_SERVER_FEATURE_SERVICE => 15

/-- Fallible enum resolution `ProtocolID(raw)`: `some` on a defined member's
value, `none` where Python raises `ValueError`. -/
def ProtocolID.ofNat? (n : Nat) : Option ProtocolID :=
  if n = 1 then some .KNX_TUNNEL
  else if n = 15 then some .BUS_ACCESS_SERVER_FEATURE_SERVICE
  else none

/-- Modelled from the spec: `EMIID` is a closed enumeration distinguishing the
EMI1 / EMI2 / cEMI frame formats (`xknx/usb/knx_hid_datatypes.py` is not among
the shown sources).  The octet values are chosen injectively. -/
inductive EMIID
  | EMI1
  | EMI2
  | COMMON_EMI
deriving DecidableEq

/-- Octet value of an `EMIID` member (Python `enum.value`). -/
def EMIID.value : EMIID → Nat
  | .EMI1 => 1
  | .EMI2 => 2
  | .COMMON_EMI => 3

/-- Fallible enum resolution `EMIID(raw)`: `some` on a defined member's value,
`none` where Python raises `ValueError`. -/
def EMIID.ofNat? (n : Nat) : Option EMIID :=
  if n = 1 then some .EMI1
  else if n = 2 then some .EMI2
  else if n = 3 then some .COMMON_EMI
  else none

/-- Modelled from the spec: `CEMIMessageCode` enumerates the cEMI message
types (request / confirmation / indication) used to interpret the first
payload octet (`xknx/knxip/knxip_enum.py` is not among the shown sources).
A small representative set of defined code octets is used. -/
inductive CEMIMessageCode
  | L_DATA_REQ
  | L_DATA_IND
  | L_DATA_CON
deriving DecidableEq

/-- Octet value of a `CEMIMessageCode` member (Python `enum.value`). -/
def CEMIMessageCode.value : CEMIMessageCode → Nat
  | .L_DATA_REQ => 0x11
  | .L_DATA_IND => 0x29
  | .L_DATA_CON => 0x2E

/-- Fallible enum resolution `CEMIMessageCode(raw)`: `some` on a defined
member's value, `none` where Python raises `ValueError`. -/
def CEMIMessageCode.ofNat? (n : Nat) : Option CEMIMessageCode :=
  if n = 0x11 then some .L_DATA_REQ
  else if n = 0x29 then some .L_DATA_IND
  else if n = 0x2E then some .L_DATA_CON
  else none

/-- Modelled from the spec: `SequenceNumber` enumerates packet positions of a
multi-report transfer (`xknx/usb/knx_hid_datatypes.py` is not among the shown
sources). -/
inductive SequenceNumber
  | FIRST_PACKET
  | SECOND_PACKET
  | THIRD_PACKET
  | FOURTH_PACKET
  | FIFTH_PACKET
deriving DecidableEq

/-- Modelled from the spec: `DataSizeBySequenceNumber.of` is the total map
from packet position to the maximum number of body octets permitted in that
segment kind: 52 octets for the first report's segment, 61 for every
continuation segment (`xknx/usb/knx_hid_datatypes.py` is not among the shown
sources; the capacities appear in the body class docstring of
`knx_hid_transfer.py` and in the wire-format table of the design document). -/
def DataSizeBySequenceNumber.of : SequenceNumber → Nat
  | .FIRST_PACKET => 52
  | _ => 61

/-- The source stores `DataSizeBySequenceNumber.of(SequenceNumber.FIRST_PACKET)`
in the instance attribute `_max_bytes` of every body object; the value never
changes, so it is embedded as a constant. -/
def max_bytes : Nat := DataSizeBySequenceNumber.of SequenceNumber.FIRST_PACKET

/-- The source stores `DataSizeBySequenceNumber.of(SequenceNumber.SECOND_PACKET)`
in the instance attribute `_max_bytes_partial` of every body object (the
per-continuation-segment capacity); embedded as a constant.  The attribute name
is shortened here. -/
def max_bytes_second : Nat := DataSizeBySequenceNumber.of SequenceNumber.SECOND_PACKET

/-- Faults a Python method of this module can raise: `structFault` stands for
`struct.error` (a pack field out of range for its format code), `typeFault`
for the `TypeError` of an operation on `None`, `valueFault raw` for the
`ValueError` raised by resolving an undefined enum octet `raw`. -/
inductive PyFault
  | structFault
  | typeFault
  | valueFault (raw : Nat)
deriving DecidableEq

/-- `struct.pack(">BBHBBH", a, b, c, d, e, f)`: big-endian, one octet per `B`
field and two per `H` field; `none` where `struct.error` is raised because a
value does not fit its field. -/
def pack_BBHBBH (a b c d e f : Nat) : Option (List Nat) :=
  if a < 256 ∧ b < 256 ∧ c < 65536 ∧ d < 256 ∧ e < 256 ∧ f < 65536 then
    some [a, b, c / 256, c % 256, d, e, f / 256, f % 256]
  else
    none

/-- Python `bytes.ljust(width, fill)`: right-pad to `width` with `fill`,
returning the string unchanged when it is already at least `width` long. -/
def ljust (l : List Nat) (width : Nat) (fill : Nat) : List Nat :=
  l ++ List.replicate (width - l.length) fill

/-- `KNXUSBTransferProtocolHeaderData`: semantic content needed to build a
header (class of the same name in `knx_hid_transfer.py`). -/
structure KNXUSBTransferProtocolHeaderData where
  body_length : Nat
  protocol_id : ProtocolID
  emi_id : EMIID
deriving DecidableEq

/-- `KNXUSBTransferProtocolBodyData`: semantic content needed to build a body
segment (class of the same name in `knx_hid_transfer.py`).  The source's
attribute `partial` is rendered `partialFlag`. -/
structure KNXUSBTransferProtocolBodyData where
  data : List Nat
  partialFlag : Bool
deriving DecidableEq

/-- `KNXUSBTransferProtocolHeader`: the decoded/encoded form of the 8-octet
transfer-protocol header.  When enum resolution fails during decode the
source leaves the raw integer in the enum attribute; no code path reads the
attribute in that state, so the embedding records `none` there.  The constant
attributes `_expected_byte_count = 8` and `_data_format = ">BBHBBH"` are
embedded in `_init` and `pack_BBHBBH`. -/
structure KNXUSBTransferProtocolHeader where
  protocol_version : Nat
  header_length : Nat
  body_length : Nat
  protocol_id : Option ProtocolID
  emi_id : Option EMIID
  manufacturer_code : Nat
  valid : Bool
deriving DecidableEq

/-- `KNXUSBTransferProtocolHeader.__init__`: the freshly constructed, not yet
valid header object. -/
def KNXUSBTransferProtocolHeader.new : KNXUSBTransferProtocolHeader :=
  { protocol_version := 0x00
    header_length := 0x08
    body_length := 0x0000
    protocol_id := none
    emi_id := none
    manufacturer_code := 0x0000
    valid := false }

/-- `KNXUSBTransferProtocolHeader.from_data`: build a header from semantic
data; immediately valid. -/
def KNXUSBTransferProtocolHeader.from_data
    (d : KNXUSBTransferProtocolHeaderData) : KNXUSBTransferProtocolHeader :=
  { KNXUSBTransferProtocolHeader.new with
      body_length := d.body_length
      protocol_id := some d.protocol_id
      emi_id := some d.emi_id
      valid := true }

/-- `KNXUSBTransferProtocolHeader._is_valid`: protocol version must be 0 and
header length 8. -/
def KNXUSBTransferProtocolHeader._is_valid (h : KNXUSBTransferProtocolHeader) : Bool :=
  h.protocol_version == 0 && h.header_length == 8

/-- `KNXUSBTransferProtocolHeader._init`: decode from raw octets.  A length
other than `_expected_byte_count = 8` leaves the default object (the source
logs and returns).  Otherwise the octets are unpacked per `">BBHBBH"` and the
two enum octets are resolved; a resolution failure (Python `ValueError`,
caught by the source) leaves `valid` false, and the second resolution is not
attempted when the first fails. -/
def KNXUSBTransferProtocolHeader._init (dat : List Nat) : KNXUSBTransferProtocolHeader :=
  match dat with
  | [pv, hl, b2, b3, pidRaw, eidRaw, m6, m7] =>
    let base : KNXUSBTransferProtocolHeader :=
      { protocol_version := pv
        header_length := hl
        body_length := b2 * 256 + b3
        protocol_id := none
        emi_id := none
        manufacturer_code := m6 * 256 + m7
        valid := false }
    match ProtocolID.ofNat? pidRaw with
    | none => base
    | some p =>
      match EMIID.ofNat? eidRaw with
      | none => { base with protocol_id := some p }
      | some e =>
        let withIds := { base with protocol_id := some p, emi_id := some e }
        { withIds with valid := withIds._is_valid }
  | _ => KNXUSBTransferProtocolHeader.new

/-- `KNXUSBTransferProtocolHeader.from_knx`: decode a header from raw KNX
octets. -/
def KNXUSBTransferProtocolHeader.from_knx (dat : List Nat) : KNXUSBTransferProtocolHeader :=
  KNXUSBTransferProtocolHeader._init dat

/-- `KNXUSBTransferProtocolHeader.to_knx`: serialize a valid header through
`struct.pack(">BBHBBH", ...)`; an invalid header serializes to `bytes()`.
Accessing `.value` on an unresolved enum attribute would raise in Python
(`typeFault`); an out-of-range pack field raises `struct.error`
(`structFault`). -/
def KNXUSBTransferProtocolHeader.to_knx
    (h : KNXUSBTransferProtocolHeader) : Except PyFault (List Nat) :=
  if h.valid then
    match h.protocol_id, h.emi_id with
    | some p, some e =>
      match pack_BBHBBH h.protocol_version h.header_length h.body_length
          p.value e.value h.manufacturer_code with
      | some bs => Except.ok bs
      | none => Except.error PyFault.structFault
    | _, _ => Except.error PyFault.typeFault
  else
    Except.ok []

/-- `KNXUSBTransferProtocolBody`: the decoded/encoded form of one report's
body segment.  The source's attribute `_partial` is rendered `partialFlag`;
`_data` is `None` until a construction path fills it. -/
structure KNXUSBTransferProtocolBody where
  data : Option (List Nat)
  valid : Bool
  partialFlag : Bool
deriving DecidableEq

/-- `KNXUSBTransferProtocolBody.__init__`: the freshly constructed, not yet
valid body object. -/
def KNXUSBTransferProtocolBody.new : KNXUSBTransferProtocolBody :=
  { data := none, valid := false, partialFlag := false }

/-- `KNXUSBTransferProtocolBody.from_data`: build a body segment from
semantic data; valid exactly when the payload fits the capacity of its
segment kind (continuation capacity for a partial segment, first-segment
capacity otherwise), with the two branches checked in source order. -/
def KNXUSBTransferProtocolBody.from_data
    (d : KNXUSBTransferProtocolBodyData) : KNXUSBTransferProtocolBody :=
  let obj := { KNXUSBTransferProtocolBody.new with partialFlag := d.partialFlag }
  if d.data.length ≤ max_bytes_second ∧ d.partialFlag = true then
    { obj with data := some d.data, valid := true }
  else if d.data.length ≤ max_bytes ∧ d.partialFlag = false then
    { obj with data := some d.data, valid := true }
  else
    obj

/-- `KNXUSBTransferProtocolBody._init`: decode from raw octets; only inputs
of exactly first-segment width or continuation-segment width are accepted
(the source logs and returns on any other length). -/
def KNXUSBTransferProtocolBody._init (dat : List Nat) : KNXUSBTransferProtocolBody :=
  if dat.length = max_bytes ∨ dat.length = max_bytes_second then
    { KNXUSBTransferProtocolBody.new with data := some dat, valid := true }
  else
    KNXUSBTransferProtocolBody.new

/-- `KNXUSBTransferProtocolBody.from_knx`: decode a body segment from raw
KNX octets. -/
def KNXUSBTransferProtocolBody.from_knx (dat : List Nat) : KNXUSBTransferProtocolBody :=
  KNXUSBTransferProtocolBody._init dat

/-- `KNXUSBTransferProtocolBody.to_knx`: for a valid body, right-pad the
stored payload with zero octets up to the capacity selected by the `partial`
argument (`ljust` leaves a longer payload unchanged) — the final
`struct.pack` with format `"<Ns"` is the identity on those octets; an invalid
body serializes to `bytes()`.  Every construction path that sets `valid`
also fills `data`, so the `Option.getD` default is never reached. -/
def KNXUSBTransferProtocolBody.to_knx
    (b : KNXUSBTransferProtocolBody) (p : Bool) : List Nat :=
  if b.valid then
    let data_length := if p then max_bytes_second else max_bytes
    ljust (b.data.getD []) data_length 0x00
  else
    []

/-- `KNXUSBTransferProtocolBody.emi_message_code`: the source evaluates
`not self._partial and len(self._data) > 0` with short-circuiting, so a
`None` payload raises `TypeError` only on a non-partial body, and then
constructs `CEMIMessageCode(self._data[0])` without catching the
`ValueError` of an undefined octet. -/
def KNXUSBTransferProtocolBody.emi_message_code
    (b : KNXUSBTransferProtocolBody) : Except PyFault (Option CEMIMessageCode) :=
  if b.partialFlag then
    Except.ok none
  else
    match b.data with
    | none => Except.error PyFault.typeFault
    | some d =>
      if d.length > 0 then
        match CEMIMessageCode.ofNat? (d.getD 0 0) with
        | some c => Except.ok (some c)
        | none => Except.error (PyFault.valueFault (d.getD 0 0))
      else
        Except.ok none

/-- Modelled from the spec: the fixed USB HID report width of 64 octets
(wire-format table of the design document; the fragmenter and reassembler
sources are not among the shown files). -/
def report_size : Nat := 64

/-- Modelled from the spec: a report as handed to / received from the
transport — a buffer of `report_size` octets together with its sequence
position (1 for the first report of a transfer). -/
structure Report where
  seq : Nat
  buf : List Nat
deriving DecidableEq

/-- Modelled from the spec: split the remainder of a frame into
continuation-segment chunks of at most `max_bytes_second` octets each. -/
def chunk61 (l : List Nat) : List (List Nat) :=
  if h : l = [] then []
  else l.take max_bytes_second :: chunk61 (l.drop max_bytes_second)
termination_by l.length
decreasing_by
  simp only [List.length_drop, max_bytes_second, DataSizeBySequenceNumber.of]
  have : 0 < l.length := List.length_pos.mpr h
  omega

/-- Modelled from the spec: build the continuation reports for a list of
chunks, tagging each with the next sequence value starting at `k`; each
chunk is encoded as a partial body, serialized at continuation width and
padded to the fixed report width. -/
def contReports (k : Nat) : List (List Nat) → List Report
  | [] => []
  | c :: cs =>
    ⟨k, ljust ((KNXUSBTransferProtocolBody.from_data ⟨c, true⟩).to_knx true)
        report_size 0x00⟩ :: contReports (k + 1) cs

/-- Modelled from the spec: the Frame Fragmenter (§4.4).  The first report
carries the 8-octet header followed by the first-segment body (up to 52
octets of the frame), padded to the report width; the remaining frame octets
travel in continuation reports of up to 61 octets each, tagged with
increasing sequence values.  A frame whose length exceeds the 16-bit body
length field fails with `FrameTooLarge` (`none`) before any report is
emitted. -/
def fragment (f : List Nat) (pid : ProtocolID) (eid : EMIID) : Option (List Report) :=
  if f.length > 65535 then none
  else
    match (KNXUSBTransferProtocolHeader.from_data ⟨f.length, pid, eid⟩).to_knx with
    | Except.error _ => none
    | Except.ok hb =>
      let body1 := KNXUSBTransferProtocolBody.from_data ⟨f.take max_bytes, false⟩
      let first : Report := ⟨1, ljust (hb ++ body1.to_knx false) report_size 0x00⟩
      some (first :: contReports 2 (chunk61 (f.drop max_bytes)))

/-- Modelled from the spec: the Frame Reassembler's state (§4.5): `idle`
with no transfer in progress, or `collecting` with the declared body length,
the next expected sequence value, and the octets accumulated so far. -/
inductive RState
  | idle
  | collecting (bodyLength : Nat) (nextSeq : Nat) (acc : List Nat)
deriving DecidableEq

/-- Modelled from the spec: one step of the Frame Reassembler (§4.5).  In
`idle`, a first report is decoded as header (octets 0–7) plus first-segment
body (the following 52 octets); decode failure, like a continuation report
arriving in `idle`, discards the report and stays `idle`.  In `collecting`,
a report with the expected sequence value is decoded as a continuation body
(its first 61 octets); a sequence gap or body decode failure ends the
transfer and returns to `idle`.  Accumulation completes once the running
total reaches the declared body length; the reassembled frame is the
accumulated buffer truncated to exactly that length. -/
def rstep : RState → Report → RState × Option (List Nat)
  | RState.idle, r =>
    if r.seq = 1 then
      let hdr := KNXUSBTransferProtocolHeader.from_knx (r.buf.take 8)
      let body := KNXUSBTransferProtocolBody.from_knx ((r.buf.drop 8).take max_bytes)
      if hdr.valid = true ∧ body.valid = true then
        let acc := body.data.getD []
        if hdr.body_length ≤ acc.length then
          (RState.idle, some (acc.take hdr.body_length))
        else
          (RState.collecting hdr.body_length 2 acc, none)
      else
        (RState.idle, none)
    else
      (RState.idle, none)
  | RState.collecting bl ns acc, r =>
    if r.seq = ns then
      let body := KNXUSBTransferProtocolBody.from_knx (r.buf.take max_bytes_second)
      if body.valid = true then
        let acc2 := acc ++ body.data.getD []
        if bl ≤ acc2.length then
          (RState.idle, some (acc2.take bl))
        else
          (RState.collecting bl (ns + 1) acc2, none)
      else
        (RState.idle, none)
    else
      (RState.idle, none)

/-- Modelled from the spec: drive the reassembler over a list of reports in
arrival order, remembering the frame emitted on reaching `Complete`. -/
def runFrom : RState → Option (List Nat) → List Report → RState × Option (List Nat)
  | st, out, [] => (st, out)
  | st, out, r :: rest =>
    let p := rstep st r
    runFrom p.1 (match p.2 with | some fr => some fr | none => out) rest

/-- Modelled from the spec: feed a list of reports, in order, into a fresh
reassembler. -/
def runReassembler (rs : List Report) : RState × Option (List Nat) :=
  runFrom RState.idle none rs

/-- Sample header used to instantiate the serialization-layout theorem. -/
def sampleHeader : KNXUSBTransferProtocolHeader :=
  KNXUSBTransferProtocolHeader.from_data
    ⟨300, ProtocolID.BUS_ACCESS_SERVER_FEATURE_SERVICE, EMIID.COMMON_EMI⟩

lemma take_append_len (l r : List Nat) : (l ++ r).take l.length = l := by
  induction l with
  | nil => rfl
  | cons a t ih => simp [ih]

lemma drop_append_len (l r : List Nat) : (l ++ r).drop l.length = r := by
  induction l with
  | nil => rfl
  | cons a t ih => simp [ih]

lemma take_of_len_le (l : List Nat) (n : Nat) (h : l.length ≤ n) : l.take n = l := by
  induction l generalizing n with
  | nil => simp
  | cons a t ih =>
    cases n with
    | zero => simp at h
    | succ m => simp only [List.take_succ_cons]; rw [ih m (by simpa using h)]

lemma drop_of_len_le (l : List Nat) (n : Nat) (h : l.length ≤ n) : l.drop n = [] := by
  induction l generalizing n with
  | nil => simp
  | cons a t ih =>
    cases n with
    | zero => simp at h
    | succ m => simp only [List.drop_succ_cons]; exact ih m (by simpa using h)

lemma ljust_length_of_le (l : List Nat) (w f : Nat) (h : l.length ≤ w) :
    (ljust l w f).length = w := by
  simp only [ljust, List.length_append, List.length_replicate]
  omega

lemma ljust_of_ge (l : List Nat) (w f : Nat) (h : w ≤ l.length) : ljust l w f = l := by
  simp [ljust, Nat.sub_eq_zero_of_le h]

lemma ljust_take_len (l : List Nat) (w f : Nat) : (ljust l w f).take l.length = l :=
  take_append_len l _

lemma pid_ofNat_value (p : ProtocolID) : ProtocolID.ofNat? p.value = some p := by
  cases p <;> rfl

lemma pid_value_lt_256 (p : ProtocolID) : p.value < 256 := by
  cases p <;> decide

lemma eid_ofNat_value (e : EMIID) : EMIID.ofNat? e.value = some e := by
  cases e <;> rfl

lemma eid_value_lt_256 (e : EMIID) : e.value < 256 := by
  cases e <;> decide

lemma header_from_data_to_knx (n : Nat) (pid : ProtocolID) (eid : EMIID) (h : n < 65536) :
    (KNXUSBTransferProtocolHeader.from_data ⟨n, pid, eid⟩).to_knx =
      Except.ok [0, 8, n / 256, n % 256, pid.value, eid.value, 0, 0] := by
  have hp := pid_value_lt_256 pid
  have he := eid_value_lt_256 eid
  simp [KNXUSBTransferProtocolHeader.from_data, KNXUSBTransferProtocolHeader.to_knx,
        KNXUSBTransferProtocolHeader.new, pack_BBHBBH, h, hp, he]

lemma header_from_knx_packed (n : Nat) (pid : ProtocolID) (eid : EMIID) (h : n < 65536) :
    KNXUSBTransferProtocolHeader.from_knx
        [0, 8, n / 256, n % 256, pid.value, eid.value, 0, 0] =
      { protocol_version := 0, header_length := 8, body_length := n,
        protocol_id := some pid, emi_id := some eid,
        manufacturer_code := 0, valid := true } := by
  have hdm : n / 256 * 256 + n % 256 = n := by omega
  simp [KNXUSBTransferProtocolHeader.from_knx, KNXUSBTransferProtocolHeader._init,
        pid_ofNat_value, eid_ofNat_value,
        KNXUSBTransferProtocolHeader._is_valid, hdm]

lemma header_init_valid_eight (x0 x1 x2 x3 x4 x5 x6 x7 : Nat) :
    (KNXUSBTransferProtocolHeader._init [x0, x1, x2, x3, x4, x5, x6, x7]).valid = true ↔
      (ProtocolID.ofNat? x4).isSome = true ∧ (EMIID.ofNat? x5).isSome = true ∧
      x0 = 0 ∧ x1 = 8 := by
  rcases hpo : ProtocolID.ofNat? x4 with _ | p <;>
  rcases heo : EMIID.ofNat? x5 with _ | e <;>
    simp [KNXUSBTransferProtocolHeader._init, hpo, heo,
          KNXUSBTransferProtocolHeader._is_valid, Bool.and_eq_true, beq_iff_eq, and_assoc]

lemma chunk61_nil : chunk61 [] = [] := by
  unfold chunk61
  rfl

lemma chunk61_cons (l : List Nat) (h : l ≠ []) :
    chunk61 l = l.take max_bytes_second :: chunk61 (l.drop max_bytes_second) := by
  rw [chunk61]
  simp [h]

lemma cont_body_wire (c : List Nat) (hc : c.length ≤ max_bytes_second) :
    (KNXUSBTransferProtocolBody.from_data ⟨c, true⟩).to_knx true =
      ljust c max_bytes_second 0 := by
  have hfd : KNXUSBTransferProtocolBody.from_data ⟨c, true⟩ =
      { data := some c, valid := true, partialFlag := true } := by
    simp [KNXUSBTransferProtocolBody.from_data, KNXUSBTransferProtocolBody.new, hc]
  rw [hfd]
  simp [KNXUSBTransferProtocolBody.to_knx]

lemma take_of_pad_to (inner : List Nat) (w : Nat) (hi : inner.length = w) :
    (ljust inner report_size 0).take w = inner := by
  rw [← hi]
  exact ljust_take_len _ _ 0

lemma rstep_collecting (n k : Nat) (acc c : List Nat) (hc : c.length ≤ max_bytes_second) :
    rstep (RState.collecting n k acc)
      ⟨k, ljust ((KNXUSBTransferProtocolBody.from_data ⟨c, true⟩).to_knx true)
        report_size 0⟩ =
      (if n ≤ acc.length + max_bytes_second then
        (RState.idle, some ((acc ++ ljust c max_bytes_second 0).take n))
      else
        (RState.collecting n (k + 1) (acc ++ ljust c max_bytes_second 0), none)) := by
  have hwire := cont_body_wire c hc
  have hilen : (ljust c max_bytes_second 0).length = max_bytes_second :=
    ljust_length_of_le c _ 0 hc
  have hfk : KNXUSBTransferProtocolBody.from_knx
      ((ljust (ljust c max_bytes_second 0) report_size 0).take max_bytes_second) =
      { data := some (ljust c max_bytes_second 0), valid := true, partialFlag := false } := by
    rw [take_of_pad_to _ _ hilen]
    simp [KNXUSBTransferProtocolBody.from_knx, KNXUSBTransferProtocolBody._init, hilen,
          KNXUSBTransferProtocolBody.new]
  simp only [rstep, hwire, hfk]
  simp [hilen]

lemma runFrom_chunks (m : Nat) : ∀ (rem acc : List Nat) (n k : Nat)
    (out : Option (List Nat)), rem.length ≤ m → rem ≠ [] →
    n = acc.length + rem.length →
    runFrom (RState.collecting n k acc) out (contReports k (chunk61 rem)) =
      (RState.idle, some (acc ++ rem)) := by
  induction m with
  | zero =>
    intro rem acc n k out hle hne hn
    cases rem with
    | nil => exact absurd rfl hne
    | cons a t => simp at hle
  | succ m ih =>
    intro rem acc n k out hle hne hn
    have hms : max_bytes_second = 61 := rfl
    rw [chunk61_cons rem hne]
    by_cases hlast : rem.length ≤ max_bytes_second
    · have htk : rem.take max_bytes_second = rem := take_of_len_le rem _ hlast
      have hdr : rem.drop max_bytes_second = [] := drop_of_len_le rem _ hlast
      rw [htk, hdr, chunk61_nil]
      simp only [contReports, runFrom]
      rw [rstep_collecting n k acc rem hlast, if_pos (by omega)]
      have hemit : (acc ++ ljust rem max_bytes_second 0).take n = acc ++ rem := by
        unfold ljust
        rw [← List.append_assoc]
        have hn2 : n = (acc ++ rem).length := by simp [hn]
        rw [hn2, take_append_len]
      simp [hemit, runFrom]
    · have hclen : (rem.take max_bytes_second).length = max_bytes_second := by
        simp only [List.length_take]
        omega
      simp only [contReports, runFrom]
      rw [rstep_collecting n k acc (rem.take max_bytes_second) (le_of_eq hclen),
          if_neg (by omega)]
      rw [ljust_of_ge _ _ _ (le_of_eq hclen.symm)]
      have happ := ih (rem.drop max_bytes_second) (acc ++ rem.take max_bytes_second) n
        (k + 1) out (by simp only [List.length_drop]; omega)
        (by
          have : 0 < (rem.drop max_bytes_second).length := by
            simp only [List.length_drop]; omega
          exact List.length_pos.mp this)
        (by
          simp only [List.length_append, List.length_drop, hclen]
          omega)
      simp only [runFrom] at happ ⊢
      rw [happ, List.append_assoc, List.take_append_drop]

lemma first_body_wire (f : List Nat) :
    (KNXUSBTransferProtocolBody.from_data ⟨f.take max_bytes, false⟩).to_knx false =
      ljust (f.take max_bytes) max_bytes 0 := by
  have hc : (f.take max_bytes).length ≤ max_bytes := by
    simp only [List.length_take]
    omega
  have hfd : KNXUSBTransferProtocolBody.from_data ⟨f.take max_bytes, false⟩ =
      { data := some (f.take max_bytes), valid := true, partialFlag := false } := by
    simp [KNXUSBTransferProtocolBody.from_data, KNXUSBTransferProtocolBody.new, hc]
  rw [hfd]
  simp [KNXUSBTransferProtocolBody.to_knx]

lemma fragment_eq (f : List Nat) (pid : ProtocolID) (eid : EMIID)
    (h : f.length < 65536) :
    fragment f pid eid = some
      (⟨1, ljust ([0, 8, f.length / 256, f.length % 256, pid.value, eid.value, 0, 0] ++
          ljust (f.take max_bytes) max_bytes 0) report_size 0⟩ ::
        contReports 2 (chunk61 (f.drop max_bytes))) := by
  have hno : ¬ f.length > 65535 := by omega
  simp [fragment, hno, header_from_data_to_knx f.length pid eid h, first_body_wire]

lemma rstep_first (f : List Nat) (pid : ProtocolID) (eid : EMIID)
    (h : f.length < 65536) :
    rstep RState.idle
      ⟨1, ljust ([0, 8, f.length / 256, f.length % 256, pid.value, eid.value, 0, 0] ++
        ljust (f.take max_bytes) max_bytes 0) report_size 0⟩ =
      (if f.length ≤ max_bytes then
        (RState.idle, some ((ljust (f.take max_bytes) max_bytes 0).take f.length))
      else
        (RState.collecting f.length 2 (ljust (f.take max_bytes) max_bytes 0), none)) := by
  set hb : List Nat :=
    [0, 8, f.length / 256, f.length % 256, pid.value, eid.value, 0, 0] with hhb
  set b1 : List Nat := ljust (f.take max_bytes) max_bytes 0 with hb1
  have hhblen : hb.length = 8 := by rw [hhb]; rfl
  have hb1len : b1.length = max_bytes := by
    rw [hb1]
    exact ljust_length_of_le _ _ _ (by simp only [List.length_take]; omega)
  have hbuf : ljust (hb ++ b1) report_size 0 = hb ++ (b1 ++ List.replicate 4 0) := by
    have hlen : (hb ++ b1).length = 60 := by
      simp only [List.length_append, hhblen, hb1len]
      rfl
    rw [ljust, hlen, List.append_assoc]
    rfl
  rw [hbuf]
  have htk8 : (hb ++ (b1 ++ List.replicate 4 0)).take 8 = hb := by
    rw [← hhblen]
    exact take_append_len _ _
  have hdp8 : (hb ++ (b1 ++ List.replicate 4 0)).drop 8 = b1 ++ List.replicate 4 0 := by
    rw [← hhblen]
    exact drop_append_len _ _
  have htk52 : (b1 ++ List.replicate 4 0).take max_bytes = b1 := by
    rw [← hb1len]
    exact take_append_len _ _
  have hhdr : KNXUSBTransferProtocolHeader.from_knx hb =
      { protocol_version := 0, header_length := 8, body_length := f.length,
        protocol_id := some pid, emi_id := some eid,
        manufacturer_code := 0, valid := true } := by
    rw [hhb]
    exact header_from_knx_packed f.length pid eid h
  have hbody : KNXUSBTransferProtocolBody.from_knx b1 =
      { data := some b1, valid := true, partialFlag := false } := by
    simp [KNXUSBTransferProtocolBody.from_knx, KNXUSBTransferProtocolBody._init, hb1len,
          KNXUSBTransferProtocolBody.new]
  simp only [rstep, htk8, hdp8, htk52, hhdr, hbody]
  simp [hb1len]

/-- Claim C1: for every `TransferHeaderData` whose `body_length` fits in 16
bits (its `protocol_id` and `emi_id` being defined enum members by type),
building a header with `from_data`, serializing with `to_knx`, and decoding
the result with `from_knx` yields a valid header with the same
`body_length`, `protocol_id`, and `emi_id`. -/
theorem header_roundtrip (d : KNXUSBTransferProtocolHeaderData)
    (h16 : d.body_length < 65536) :
    ∃ bs, (KNXUSBTransferProtocolHeader.from_data d).to_knx = Except.ok bs ∧
      (KNXUSBTransferProtocolHeader.from_knx bs).valid = true ∧
      (KNXUSBTransferProtocolHeader.from_knx bs).body_length = d.body_length ∧
      (KNXUSBTransferProtocolHeader.from_knx bs).protocol_id = some d.protocol_id ∧
      (KNXUSBTransferProtocolHeader.from_knx bs).emi_id = some d.emi_id := by
  obtain ⟨n, pid, eid⟩ := d
  refine ⟨_, header_from_data_to_knx n pid eid h16, ?_⟩
  rw [header_from_knx_packed n pid eid h16]
  exact ⟨rfl, rfl, rfl, rfl⟩

/-- Witness for claim C1 at a concrete input. -/
theorem header_roundtrip_witness :
    ∃ bs, (KNXUSBTransferProtocolHeader.from_data
        ⟨300, ProtocolID.KNX_TUNNEL, EMIID.EMI2⟩).to_knx = Except.ok bs ∧
      (KNXUSBTransferProtocolHeader.from_knx bs).valid = true ∧
      (KNXUSBTransferProtocolHeader.from_knx bs).body_length = 300 ∧
      (KNXUSBTransferProtocolHeader.from_knx bs).protocol_id = some ProtocolID.KNX_TUNNEL ∧
      (KNXUSBTransferProtocolHeader.from_knx bs).emi_id = some EMIID.EMI2 :=
  header_roundtrip ⟨300, ProtocolID.KNX_TUNNEL, EMIID.EMI2⟩ (by decide)

/-- Claim C2: a decoded header is valid exactly when the input consisted of
8 octets whose `protocol_id` and `emi_id` octets resolve to defined enum
members, with protocol-version octet 0 and header-length octet 8; any
undefined enum octet leaves the header invalid (the decoder is a total
function — no unhandled fault). -/
theorem header_decode_valid_iff (b : List Nat) :
    (KNXUSBTransferProtocolHeader.from_knx b).valid = true ↔
      ∃ pv hl b2 b3 pidRaw eidRaw m6 m7,
        b = [pv, hl, b2, b3, pidRaw, eidRaw, m6, m7] ∧
        (ProtocolID.ofNat? pidRaw).isSome = true ∧
        (EMIID.ofNat? eidRaw).isSome = true ∧
        pv = 0 ∧ hl = 8 := by
  rcases b with _ | ⟨x0, _ | ⟨x1, _ | ⟨x2, _ | ⟨x3, _ | ⟨x4, _ | ⟨x5, _ | ⟨x6, _ | ⟨x7, _ | ⟨x8, t⟩⟩⟩⟩⟩⟩⟩⟩⟩
  all_goals try (simp [KNXUSBTransferProtocolHeader.from_knx,
    KNXUSBTransferProtocolHeader._init, KNXUSBTransferProtocolHeader.new]; done)
  rw [show KNXUSBTransferProtocolHeader.from_knx [x0, x1, x2, x3, x4, x5, x6, x7] =
    KNXUSBTransferProtocolHeader._init [x0, x1, x2, x3, x4, x5, x6, x7] from rfl,
    header_init_valid_eight]
  constructor
  · rintro ⟨h1, h2, h3, h4⟩
    exact ⟨x0, x1, x2, x3, x4, x5, x6, x7, rfl, h1, h2, h3, h4⟩
  · rintro ⟨pv, hl, b2, b3, pr, er, m6, m7, heq, h1, h2, h3, h4⟩
    simp only [List.cons.injEq, and_true] at heq
    obtain ⟨rfl, rfl, rfl, rfl, rfl, rfl, rfl, rfl⟩ := heq
    exact ⟨h1, h2, h3, h4⟩

/-- Claim C3: a decoded body is valid exactly when the input length equals
one of the two capacity constants, which are 52 (first segment) and 61
(continuation segment). -/
theorem body_decode_length_iff (b : List Nat) :
    ((KNXUSBTransferProtocolBody.from_knx b).valid = true ↔
      (b.length = max_bytes ∨ b.length = max_bytes_second)) ∧
    max_bytes = 52 ∧ max_bytes_second = 61 := by
  refine ⟨?_, rfl, rfl⟩
  by_cases h : b.length = max_bytes ∨ b.length = max_bytes_second <;>
    simp [KNXUSBTransferProtocolBody.from_knx, KNXUSBTransferProtocolBody._init, h,
          KNXUSBTransferProtocolBody.new]

/-- Claim C4: a body built from semantic data is valid exactly when the
payload fits the capacity of its segment kind, the continuation capacity
being strictly larger than the first-segment capacity; an invalid body
serializes to an empty result. -/
theorem body_encode_capacity (d : KNXUSBTransferProtocolBodyData) :
    max_bytes < max_bytes_second ∧
    ((KNXUSBTransferProtocolBody.from_data d).valid = true ↔
      d.data.length ≤ (if d.partialFlag then max_bytes_second else max_bytes)) ∧
    ((KNXUSBTransferProtocolBody.from_data d).valid = false →
      ∀ q, (KNXUSBTransferProtocolBody.from_data d).to_knx q = []) := by
  refine ⟨by decide, ?_, ?_⟩
  · have hch : (KNXUSBTransferProtocolBody.from_data d).valid = true ↔
        (d.data.length ≤ max_bytes_second ∧ d.partialFlag = true) ∨
        (d.data.length ≤ max_bytes ∧ d.partialFlag = false) := by
      unfold KNXUSBTransferProtocolBody.from_data
      by_cases c1 : d.data.length ≤ max_bytes_second ∧ d.partialFlag = true
      · simp [c1]
      · by_cases c2 : d.data.length ≤ max_bytes ∧ d.partialFlag = false
        · simp [c1, c2, KNXUSBTransferProtocolBody.new]
        · simp [c1, c2, KNXUSBTransferProtocolBody.new]
    rw [hch]
    cases hp : d.partialFlag <;>
      simp [hp, max_bytes, max_bytes_second, DataSizeBySequenceNumber.of]
  · intro hinv q
    simp [KNXUSBTransferProtocolBody.to_knx, hinv]

/-- Witness for claim C4 at a concrete over-capacity input. -/
theorem body_encode_capacity_witness :
    (KNXUSBTransferProtocolBody.from_data ⟨List.replicate 53 0, false⟩).valid = false ∧
    (KNXUSBTransferProtocolBody.from_data ⟨List.replicate 53 0, false⟩).to_knx true = [] := by
  have h := body_encode_capacity ⟨List.replicate 53 0, false⟩
  have hv : (KNXUSBTransferProtocolBody.from_data
      ⟨List.replicate 53 0, false⟩).valid = false := by decide
  exact ⟨hv, h.2.2 hv true⟩

/-- Counterexample for claim C6: the body decoded from a 61-octet report
segment is valid, yet serializing it with the first-segment flag yields a
61-octet buffer, not the claimed fixed width of 52 (`ljust` never
truncates). -/
theorem body_serialize_width_cex :
    (KNXUSBTransferProtocolBody.from_knx (List.replicate 61 0)).valid = true ∧
    ((KNXUSBTransferProtocolBody.from_knx (List.replicate 61 0)).to_knx false).length ≠ 52 ∧
    ((KNXUSBTransferProtocolBody.from_knx (List.replicate 61 0)).to_knx false).length = 61 := by
  decide

/-- Claim C6 as amended: an invalid body serializes to an empty result; a
valid body whose stored payload does not exceed the capacity selected by
the flag serializes to the payload right-padded with zero octets to exactly
that fixed width (a longer stored payload is returned unpadded at its own
length). -/
theorem body_serialize_width (b : KNXUSBTransferProtocolBody) (q : Bool) :
    (b.valid = false → b.to_knx q = []) ∧
    (b.valid = true →
      (b.data.getD []).length ≤ (if q then max_bytes_second else max_bytes) →
      b.to_knx q = (b.data.getD []) ++
        List.replicate ((if q then max_bytes_second else max_bytes) -
          (b.data.getD []).length) 0 ∧
      (b.to_knx q).length = (if q then max_bytes_second else max_bytes)) := by
  constructor
  · intro h
    simp [KNXUSBTransferProtocolBody.to_knx, h]
  · intro hv hle
    refine ⟨by simp [KNXUSBTransferProtocolBody.to_knx, hv, ljust], ?_⟩
    simp only [KNXUSBTransferProtocolBody.to_knx, hv, if_true]
    exact ljust_length_of_le _ _ _ hle

/-- Witness for the amended claim C6 at a concrete input. -/
theorem body_serialize_width_witness :
    (KNXUSBTransferProtocolBody.from_data ⟨[17], false⟩).to_knx false =
      ((KNXUSBTransferProtocolBody.from_data ⟨[17], false⟩).data.getD []) ++
        List.replicate ((if false then max_bytes_second else max_bytes) -
          ((KNXUSBTransferProtocolBody.from_data ⟨[17], false⟩).data.getD []).length) 0 ∧
    ((KNXUSBTransferProtocolBody.from_data ⟨[17], false⟩).to_knx false).length =
      (if false then max_bytes_second else max_bytes) :=
  (body_serialize_width (KNXUSBTransferProtocolBody.from_data ⟨[17], false⟩) false).2
    (by decide) (by decide)

/-- Claim C7, evaluated at the failing inputs: on a non-partial body with
absent data (here: decoded from an empty input) the accessor raises
`TypeError` rather than reporting an absent result, and on a first octet
outside the defined `CEMIMessageCode` set it raises an uncaught
`ValueError` instead of a handled fallible result; a defined first octet
does resolve. -/
theorem emi_message_code_fault :
    (KNXUSBTransferProtocolBody.from_knx []).emi_message_code =
      Except.error PyFault.typeFault ∧
    (KNXUSBTransferProtocolBody.from_knx (List.replicate 52 0)).emi_message_code =
      Except.error (PyFault.valueFault 0) ∧
    (KNXUSBTransferProtocolBody.from_knx (List.replicate 52 0x11)).emi_message_code =
      Except.ok (some CEMIMessageCode.L_DATA_REQ) :=
  ⟨rfl, rfl, rfl⟩

/-- Counterexample for claim C8: a header built by `from_data` from a
`body_length` of 65536 is valid, yet `to_knx` raises `struct.error` (the
value does not fit the 16-bit pack field) — neither 8 octets nor an empty
result. -/
theorem header_serialize_cex :
    (KNXUSBTransferProtocolHeader.from_data
        ⟨65536, ProtocolID.KNX_TUNNEL, EMIID.EMI1⟩).valid = true ∧
    (KNXUSBTransferProtocolHeader.from_data
        ⟨65536, ProtocolID.KNX_TUNNEL, EMIID.EMI1⟩).to_knx =
      Except.error PyFault.structFault :=
  ⟨rfl, rfl⟩

/-- Claim C8 as amended: an invalid header serializes to an empty result;
a valid header whose enum fields are present and whose numeric fields fit
their pack slots (in particular `body_length < 2^16`) serializes to exactly
8 octets in the fixed big-endian layout `protocol_version | header_length |
body_length (2) | protocol_id | emi_id | manufacturer_code (2)`. -/
theorem header_serialize_layout (h : KNXUSBTransferProtocolHeader)
    (pid : ProtocolID) (eid : EMIID) :
    (h.valid = false → h.to_knx = Except.ok []) ∧
    (h.valid = true → h.protocol_id = some pid → h.emi_id = some eid →
      h.protocol_version < 256 → h.header_length < 256 → h.body_length < 65536 →
      h.manufacturer_code < 65536 →
      h.to_knx = Except.ok [h.protocol_version, h.header_length,
        h.body_length / 256, h.body_length % 256, pid.value, eid.value,
        h.manufacturer_code / 256, h.manufacturer_code % 256]) := by
  constructor
  · intro hv
    simp [KNXUSBTransferProtocolHeader.to_knx, hv]
  · intro hv hp he h1 h2 h3 h4
    have hpv := pid_value_lt_256 pid
    have hev := eid_value_lt_256 eid
    simp [KNXUSBTransferProtocolHeader.to_knx, hv, hp, he, pack_BBHBBH,
          h1, h2, h3, h4, hpv, hev]

/-- Witness for the amended claim C8 at a concrete input. -/
theorem header_serialize_layout_witness :
    sampleHeader.to_knx = Except.ok [sampleHeader.protocol_version,
      sampleHeader.header_length, sampleHeader.body_length / 256,
      sampleHeader.body_length % 256,
      ProtocolID.BUS_ACCESS_SERVER_FEATURE_SERVICE.value, EMIID.COMMON_EMI.value,
      sampleHeader.manufacturer_code / 256, sampleHeader.manufacturer_code % 256] :=
  (header_serialize_layout sampleHeader
      ProtocolID.BUS_ACCESS_SERVER_FEATURE_SERVICE EMIID.COMMON_EMI).2
    (by decide) (by decide) (by decide) (by decide) (by decide) (by decide) (by decide)

/-- Claim C10: every input accepted by the body decoder (length 52 or 61)
yields a valid body whose partial flag is false — wire decoding never marks
a body as a continuation segment. -/
theorem body_decode_not_partial (b : List Nat)
    (h : b.length = max_bytes ∨ b.length = max_bytes_second) :
    (KNXUSBTransferProtocolBody.from_knx b).valid = true ∧
    (KNXUSBTransferProtocolBody.from_knx b).partialFlag = false := by
  simp [KNXUSBTransferProtocolBody.from_knx, KNXUSBTransferProtocolBody._init, h,
        KNXUSBTransferProtocolBody.new]

/-- Claim C5: for every payload and partial flag within capacity, encoding
with `from_data`, serializing with `to_knx` under the same flag, and
decoding with `from_knx` yields a valid body whose payload, right-trimmed
of the padding beyond the original length, equals the original payload. -/
theorem body_roundtrip (p : List Nat) (isp : Bool)
    (hcap : p.length ≤ (if isp then max_bytes_second else max_bytes)) :
    (KNXUSBTransferProtocolBody.from_knx
        ((KNXUSBTransferProtocolBody.from_data ⟨p, isp⟩).to_knx isp)).valid = true ∧
    ((KNXUSBTransferProtocolBody.from_knx
        ((KNXUSBTransferProtocolBody.from_data ⟨p, isp⟩).to_knx isp)).data.getD
      []).take p.length = p := by
  have hfd : KNXUSBTransferProtocolBody.from_data ⟨p, isp⟩ =
      { data := some p, valid := true, partialFlag := isp } := by
    cases isp
    · have hc : p.length ≤ max_bytes := by simpa using hcap
      simp [KNXUSBTransferProtocolBody.from_data, KNXUSBTransferProtocolBody.new, hc]
    · have hc : p.length ≤ max_bytes_second := by simpa using hcap
      simp [KNXUSBTransferProtocolBody.from_data, KNXUSBTransferProtocolBody.new, hc]
  have hw : (KNXUSBTransferProtocolBody.from_data ⟨p, isp⟩).to_knx isp =
      ljust p (if isp then max_bytes_second else max_bytes) 0 := by
    rw [hfd]
    simp [KNXUSBTransferProtocolBody.to_knx]
  have hOk : (ljust p (if isp then max_bytes_second else max_bytes) 0).length = max_bytes ∨
      (ljust p (if isp then max_bytes_second else max_bytes) 0).length = max_bytes_second := by
    have hlen := ljust_length_of_le p (if isp then max_bytes_second else max_bytes) 0 hcap
    cases isp <;> simp_all
  have hinit : KNXUSBTransferProtocolBody.from_knx
      (ljust p (if isp then max_bytes_second else max_bytes) 0) =
      { data := some (ljust p (if isp then max_bytes_second else max_bytes) 0),
        valid := true, partialFlag := false } := by
    simp [KNXUSBTransferProtocolBody.from_knx, KNXUSBTransferProtocolBody._init, hOk,
          KNXUSBTransferProtocolBody.new]
  rw [hw, hinit]
  exact ⟨rfl, ljust_take_len p _ 0⟩

/-- Witness for claim C5 at a concrete input. -/
theorem body_roundtrip_witness :
    (KNXUSBTransferProtocolBody.from_knx
        ((KNXUSBTransferProtocolBody.from_data ⟨[0x29, 5], false⟩).to_knx false)).valid = true ∧
    ((KNXUSBTransferProtocolBody.from_knx
        ((KNXUSBTransferProtocolBody.from_data ⟨[0x29, 5], false⟩).to_knx false)).data.getD
      []).take ([0x29, 5] : List Nat).length = [0x29, 5] :=
  body_roundtrip [0x29, 5] false (by decide)

/-- Claim C9: for every data-link frame of 1 to 263 octets, fragmenting it
and feeding the resulting reports, in order, into a fresh reassembler
yields exactly the original frame. -/
theorem fragment_reassemble_id (f : List Nat) (pid : ProtocolID) (eid : EMIID)
    (hlow : 1 ≤ f.length) (hhigh : f.length ≤ 263) :
    ∃ rs, fragment f pid eid = some rs ∧ (runReassembler rs).2 = some f := by
  have h16 : f.length < 65536 := by omega
  have hmb : max_bytes = 52 := rfl
  refine ⟨_, fragment_eq f pid eid h16, ?_⟩
  unfold runReassembler
  simp only [runFrom]
  rw [rstep_first f pid eid h16]
  by_cases hc : f.length ≤ max_bytes
  · rw [if_pos hc]
    have hdrop : f.drop max_bytes = [] := drop_of_len_le f _ hc
    have htk : f.take max_bytes = f := take_of_len_le f _ hc
    rw [hdrop, chunk61_nil, htk]
    simp only [contReports, runFrom]
    simp [ljust_take_len]
  · rw [if_neg hc]
    have hb1 : ljust (f.take max_bytes) max_bytes 0 = f.take max_bytes :=
      ljust_of_ge _ _ _ (by simp only [List.length_take]; omega)
    rw [hb1]
    have hne : f.drop max_bytes ≠ [] := by
      have hpos : 0 < (f.drop max_bytes).length := by
        simp only [List.length_drop]
        omega
      exact List.length_pos.mp hpos
    have happ := runFrom_chunks (f.drop max_bytes).length (f.drop max_bytes)
      (f.take max_bytes) f.length 2 none (le_refl _) hne
      (by simp only [List.length_take, List.length_drop]; omega)
    simp only [runFrom] at happ ⊢
    simp only [happ, List.take_append_drop]

set_option maxRecDepth 4000 in
/-- Witness for claim C9 at a concrete three-report frame. -/
theorem fragment_reassemble_id_witness :
    ∃ rs, fragment (List.replicate 170 42) ProtocolID.KNX_TUNNEL EMIID.COMMON_EMI =
        some rs ∧
      (runReassembler rs).2 = some (List.replicate 170 42) :=
  fragment_reassemble_id (List.replicate 170 42) ProtocolID.KNX_TUNNEL EMIID.COMMON_EMI
    (by simp) (by simp)

/-- Witness for claim C10 at a continuation-width input. -/
theorem body_decode_not_partial_witness :
    (KNXUSBTransferProtocolBody.from_knx (List.replicate 61 7)).valid = true ∧
    (KNXUSBTransferProtocolBody.from_knx (List.replicate 61 7)).partialFlag = false :=
  body_decode_not_partial (List.replicate 61 7) (by decide)

end KnxUsb
